import Mathlib

/-!
Verification of the go-router core (donseba/go-router) against its
natural-language specification.  The definitions below are a shallow
embedding of the Go source: `Router`/`registerRoute`/`Group`/`Use`
(router.go), the `routingStatusInterceptWriter` decorator, the OpenAPI
documentation registry (`registerDocs`, `handleDocOut`, `handleDocIn`,
`PathItem`, `registerOptionsHandler`), and the dispatch entry point
`ServeHTTP`.  Go maps are modelled as association lists, Go slices as
lists, `reflect` values by the type information the code actually
consults, and Go panics as `Except.error`.
-/

namespace GoRouter

/-! ### Association lists standing in for Go maps -/

/-- Lookup in an association list, as `m[k]` with the `ok` flag. -/
def alookup {κ α : Type} [DecidableEq κ] : List (κ × α) → κ → Option α
  | [], _ => none
  | (k, v) :: rest, key => if k = key then some v else alookup rest key

/-- Map write `m[k] = v`: replaces an existing binding, else appends. -/
def aset {κ α : Type} [DecidableEq κ] : List (κ × α) → κ → α → List (κ × α)
  | [], key, v => [(key, v)]
  | (k, w) :: rest, key, v =>
      if k = key then (key, v) :: rest else (k, w) :: aset rest key v

/-- Map delete `delete(m, k)`. -/
def adel {κ α : Type} [DecidableEq κ] (m : List (κ × α)) (key : κ) : List (κ × α) :=
  m.filter (fun e => !(e.1 == key))

/-- Number of bindings an association list holds for a key. -/
def acount {κ α : Type} [DecidableEq κ] (m : List (κ × α)) (key : κ) : Nat :=
  (m.filter (fun e => e.1 == key)).length

/-! ### Character-list string helpers

Executable renderings of the Go `strings` functions the router calls,
written by structural recursion so the kernel can evaluate them. -/

/-- `strings.ReplaceAll(pattern, "{$}", "")`, specialised to its one call
site: removes every occurrence of the exact-match marker, scanning left
to right. -/
def stripExactMarker : List Char → List Char
  | [] => []
  | '{' :: '$' :: '}' :: rest => stripExactMarker rest
  | c :: rest => c :: stripExactMarker rest

/-- `strings.Split(s, sep)` for a one-character separator. -/
def splitChar (sep : Char) : List Char → List (List Char)
  | [] => [[]]
  | c :: rest =>
      let r := splitChar sep rest
      if c = sep then [] :: r
      else
        match r with
        | [] => [[c]]
        | w :: ws => (c :: w) :: ws

/-- `strings.TrimLeft(s, cutset)` for a one-character cutset. -/
def trimLeftChar (c : Char) : List Char → List Char
  | [] => []
  | x :: rest => if x = c then trimLeftChar c rest else x :: rest

/-- `strings.TrimRight(s, cutset)` for a one-character cutset. -/
def trimRightChar (c : Char) (l : List Char) : List Char :=
  (trimLeftChar c l.reverse).reverse

/-- Helper for `strings.Title`: upper-cases a character that starts a
word, i.e. whose predecessor is not a letter. -/
def goTitleAux : Bool → List Char → List Char
  | _, [] => []
  | prevLetter, c :: rest =>
      (if prevLetter then c else c.toUpper) :: goTitleAux c.isAlpha rest

/-- `strings.Title(s)`. -/
def goTitle (s : List Char) : List Char :=
  goTitleAux false s

/-! ### Middleware composition (router.go: `registerRoute`, `Group`, `Use`)

`type Middleware func(http.Handler) http.Handler`; the handler type is
abstract here because the composition logic never inspects it. -/

def Middleware (H : Type) : Type := H → H

/-- The wrapping loop of `registerRoute` (and `ServeFiles`/`ServeFile`):

    for i := len(r.middlewares) - 1; i >= 0; i-- {
        finalHandler = r.middlewares[i](finalHandler)
    }

Unrolling the countdown, the last middleware is applied first and the
first one last, so the head of `middlewares` ends up outermost. -/
def wrapMiddlewares {H : Type} : List (Middleware H) → H → H
  | [], h => h
  | m :: rest, h => m (wrapMiddlewares rest h)

/-- `Group` gives the child `append([]Middleware{}, r.middlewares...)`:
a snapshot copy of the parent's current middleware list. -/
def groupMiddlewares {H : Type} (parent : List (Middleware H)) : List (Middleware H) :=
  parent

/-- `Use` appends to the node's own list:
`r.middlewares = append(r.middlewares, middleware)`. -/
def useMiddleware {H : Type} (ms : List (Middleware H)) (m : Middleware H) :
    List (Middleware H) :=
  ms ++ [m]

/-! To talk about "observes the request first and the response last" we
instantiate the abstract handler type with an event trace: a handler maps
the trace so far to the extended trace. -/

abbrev TraceHandler := List String → List String

/-- A named middleware that logs entry before delegating and exit after:
the shape of `middleware.Timer` / `middleware.Recover`. -/
def traceMiddleware (name : String) : Middleware TraceHandler :=
  fun h t => h (t ++ [name ++ ".req"]) ++ [name ++ ".res"]

/-- A terminal handler that just logs that it ran. -/
def traceBaseHandler : TraceHandler :=
  fun t => t ++ ["handler"]

/-! ### routingStatusInterceptWriter (per-request response decorator)

Embedding of the map-based variant shipped with the `HandleStatus`
router; the fixed 404/405/500 variant has the same control flow.  The
wrapped `http.ResponseWriter` is modelled by the list of events that
were forwarded to it; a predicate closure is modelled by the boolean it
returns at the call. -/

inductive WriterEvent where
  | statusLine (code : Nat)
  | chunk (data : String)
deriving DecidableEq, Repr

structure RoutingStatusInterceptWriter where
  inner : List WriterEvent
  interceptMap : List (Nat × Bool)
  statusCode : Nat
  intercepted : Bool
deriving DecidableEq, Repr

/-- `WriteHeader`: a no-op once intercepted; otherwise records the code,
marks `intercepted` when some map entry for this code has a true
predicate, and forwards the status line to the inner writer otherwise. -/
def RoutingStatusInterceptWriter.writeHeader
    (w : RoutingStatusInterceptWriter) (code : Nat) : RoutingStatusInterceptWriter :=
  if w.intercepted then w
  else
    let w1 := { w with statusCode := code }
    if w1.interceptMap.any (fun e => e.1 == code && e.2) then
      { w1 with intercepted := true }
    else
      { w1 with inner := w1.inner ++ [WriterEvent.statusLine code] }

/-- `Write`: when intercepted it returns `(0, nil)` without touching the
inner writer; otherwise it forwards and reports the inner writer's
result (a healthy writer accepts everything). -/
def RoutingStatusInterceptWriter.write
    (w : RoutingStatusInterceptWriter) (data : String) :
    RoutingStatusInterceptWriter × Nat × Option String :=
  if w.intercepted then (w, 0, none)
  else ({ w with inner := w.inner ++ [WriterEvent.chunk data] }, data.length, none)

/-! ### OpenAPI document model (openapi.go) -/

/-- openapi.go `Schema`: `$ref`, type, format, properties, items,
required.  An inductive rather than a structure because `Properties`
nests `Schema` inside itself. -/
inductive Schema where
  | mk (ref typeStr format : String) (properties : List (String × Schema))
      (items : Option Schema) (required : List String)

def Schema.ref : Schema → String
  | .mk r _ _ _ _ _ => r

def Schema.typeStr : Schema → String
  | .mk _ t _ _ _ _ => t

def Schema.properties : Schema → List (String × Schema)
  | .mk _ _ _ p _ _ => p

def Schema.items : Schema → Option Schema
  | .mk _ _ _ _ i _ => i

/-- `Schema{Ref: r}` with every other field left at its zero value. -/
def Schema.refOnly (r : String) : Schema :=
  .mk r "" "" [] none []

/-- `Schema{Type: t}`. -/
def Schema.typeOnly (t : String) : Schema :=
  .mk "" t "" [] none []

/-- `Schema{Type: t, Properties: props}`. -/
def Schema.withProps (t : String) (props : List (String × Schema)) : Schema :=
  .mk "" t "" props none []

/-- `Schema{Type: "array", Items: &item}`. -/
def Schema.arrayOf (item : Schema) : Schema :=
  .mk "" "array" "" [] (some item) []

/-- Decidable view of a property map: each property reduced to its
`Type` string (all the translator ever stores in a property). -/
def propTypes (props : List (String × Schema)) : List (String × String) :=
  props.map (fun e => (e.1, e.2.typeStr))

structure MediaType where
  schema : Option Schema

structure Response where
  description : String
  content : List (String × MediaType)

structure RequestBody where
  description : String
  content : List (String × MediaType)
  required : Bool

structure Parameter where
  name : String
  location : String
  description : String
  required : Bool
  schema : Option Schema

structure Operation where
  tags : List String
  summary : String
  description : String
  operationID : String
  parameters : List Parameter
  requestBody : Option RequestBody
  responses : List (String × Response)
  security : List (List (String × List String))

/-- The zero-value `Operation{}`. -/
def Operation.empty : Operation :=
  ⟨[], "", "", "", [], none, [], []⟩

/-- openapi.go `PathItem`: one optional `Operation` per supported
method.  The Go struct has no HEAD and no OPTIONS field. -/
structure PathItem where
  get : Option Operation
  post : Option Operation
  put : Option Operation
  delete : Option Operation
  patch : Option Operation

/-- The zero-value `PathItem{}`. -/
def PathItem.empty : PathItem :=
  ⟨none, none, none, none, none⟩

/-- `PathItem.Methods()`: appends the method name for every non-nil
operation, in the fixed order GET, POST, PUT, DELETE, PATCH. -/
def PathItem.methods (p : PathItem) : List String :=
  (if p.get.isSome then ["GET"] else []) ++
  (if p.post.isSome then ["POST"] else []) ++
  (if p.put.isSome then ["PUT"] else []) ++
  (if p.delete.isSome then ["DELETE"] else []) ++
  (if p.patch.isSome then ["PATCH"] else [])

/-- `PathItem.SetMethod(method, operation)`: stores the operation under
the matching field; any other method string — including `"HEAD"` and
`"OPTIONS"` — falls through the switch and leaves the item unchanged. -/
def PathItem.setMethod (p : PathItem) (method : String) (op : Operation) : PathItem :=
  match method with
  | "GET" => { p with get := some op }
  | "POST" => { p with post := some op }
  | "PUT" => { p with put := some op }
  | "DELETE" => { p with delete := some op }
  | "PATCH" => { p with patch := some op }
  | _ => p

/-- router.go `addIfMissing(slice, element, prepend)` (the
`slices.Contains` test plus conditional prepend/append). -/
def addIfMissing {α : Type} [DecidableEq α] (slice : List α) (element : α)
    (atFront : Bool) : List α :=
  if element ∈ slice then slice
  else if atFront then element :: slice else slice ++ [element]

/-! ### Declared documentation samples seen through `reflect`

`handleDocOut`/`handleDocIn` look only at type information of the
declared sample value: its kind, its name, its fields (name, `json` tag,
field kind / field type name), one pointer dereference, and the element
type of a slice.  `GoType` captures exactly that view; a `Docs` sample is
`Option GoType`, `none` being the nil interface value. -/

inductive GoKind where
  | stringKind
  | intKind
  | floatKind
  | boolKind
  | structKind
  | sliceKind
  | ptrKind
  | otherKind
deriving DecidableEq, Repr

inductive GoType where
  | prim (kind : GoKind) (name : String)
  | structType (name : String) (fields : List (String × String × GoType))
  | sliceType (elem : GoType)
  | ptrType (elem : GoType)

/-- `reflect.Value.Kind()`. -/
def GoType.goKind : GoType → GoKind
  | .prim k _ => k
  | .structType _ _ => .structKind
  | .sliceType _ => .sliceKind
  | .ptrType _ => .ptrKind

/-- `Type().Name()`: defined for named types; slice and pointer types
are unnamed, so their name is `""`. -/
def GoType.typeName : GoType → String
  | .prim _ n => n
  | .structType n _ => n
  | .sliceType _ => ""
  | .ptrType _ => ""

/-- `if obj.Kind() == reflect.Ptr { obj = obj.Elem() }`: one pointer
dereference. -/
def derefPtr : GoType → GoType
  | .ptrType t => t
  | t => t

/-- The field-kind switch of `handleDocOut`: string/integer/number/
boolean pass through, struct maps to object, slice and array to array,
and every other kind defaults to `"string"`. -/
def kindSchemaType : GoKind → String
  | .stringKind => "string"
  | .intKind => "integer"
  | .floatKind => "number"
  | .boolKind => "boolean"
  | .structKind => "object"
  | .sliceKind => "array"
  | _ => "string"

structure DocOut where
  applicationType : String
  description : String
  object : Option GoType

structure DocIn where
  object : Option GoType
  required : Bool

structure Docs where
  tags : List String
  summary : String
  description : String
  parameters : List Parameter
  requestBody : Option RequestBody
  responses : List (String × Response)
  security : List (List (String × List String))
  inDocs : Option (List (String × DocIn))
  outDocs : Option (List (String × DocOut))

/-- An all-zero `Docs{}` declaration. -/
def Docs.empty : Docs :=
  ⟨[], "", "", [], none, [], [], none, none⟩

/-- The property map `handleDocOut` derives for a struct's fields: the
property name prefers the first comma-separated piece of a non-empty,
non-`"-"` `json` tag over the Go field name, and the property type is
the field kind mapped through the primitive switch. -/
def outProperties (fields : List (String × String × GoType)) : List (String × Schema) :=
  fields.foldl
    (fun props f =>
      let fieldName :=
        if f.2.1 ≠ "" ∧ f.2.1 ≠ "-" then String.mk ((splitChar ',' f.2.1.data).headD [])
        else f.1
      aset props fieldName (Schema.typeOnly (kindSchemaType f.2.2.goKind)))
    []

/-- One iteration of the `handleDocOut` response loop, for the sample of
one declared response.  Returns the component schema to register (if the
name was not yet taken) and the `*Schema` placed into the media type;
`Except.error` models the `reflect` panic raised by `NumField` on a
non-struct value. -/
def handleDocOutEntry (schemas : List (String × Schema)) (o : DocOut) :
    Except String (Option (String × Schema) × Option Schema) :=
  match o.object with
  | none => .ok (none, none)
  | some t0 =>
      let obj := derefPtr t0
      let name := obj.typeName
      let schema := Schema.refOnly ("#/components/schemas/" ++ name)
      if (alookup schemas name).isSome then
        .ok (none, some schema)
      else
        match obj with
        | GoType.sliceType elem =>
            -- pType becomes "array", obj the element's zero value,
            -- name the element type's name, schema an array of refs
            match elem with
            | GoType.structType en fields =>
                .ok (some (en, Schema.withProps "array" (outProperties fields)),
                     some (Schema.arrayOf
                       (Schema.refOnly ("#/components/schemas/" ++ en))))
            | _ => .error "reflect: NumField of non-struct type"
        | GoType.structType _ fields =>
            .ok (some (name, Schema.withProps "object" (outProperties fields)),
                 some schema)
        | _ => .error "reflect: NumField of non-struct type"

/-- The `handleDocOut` loop over the declared `Out` map.  `comps` and
`resps` are the `componentSchemas` and `routeResponse` accumulators,
`none` until first assigned, exactly as the nil Go maps. -/
def handleDocOutLoop (schemas : List (String × Schema)) :
    List (String × DocOut) → Option (List (String × Schema)) →
    Option (List (String × Response)) →
    Except String (Option (List (String × Schema)) × Option (List (String × Response)))
  | [], comps, resps => .ok (comps, resps)
  | (code, o) :: rest, comps, resps =>
      match handleDocOutEntry schemas o with
      | .error e => .error e
      | .ok (compAdd, schema) =>
          let comps :=
            match compAdd with
            | some (n, s) => some (aset (comps.getD []) n s)
            | none => comps
          let resps := some (aset (resps.getD []) code
            { description := o.description,
              content := [(o.applicationType, ⟨schema⟩)] })
          handleDocOutLoop schemas rest comps resps

/-- `handleDocOut(do, schemas)`: nil map in, nil results out; otherwise
the loop above. -/
def handleDocOut (docOuts : Option (List (String × DocOut)))
    (schemas : List (String × Schema)) :
    Except String (Option (List (String × Schema)) × Option (List (String × Response))) :=
  match docOuts with
  | none => .ok (none, none)
  | some entries => handleDocOutLoop schemas entries none none

/-- One iteration of the `handleDocIn` loop.  Unlike the output path
there is no nil-object guard (a nil sample makes `obj.Type()` panic), no
slice handling, no `json`-tag handling, and the property type is the raw
`field.Type().Name()` rather than the mapped kind. -/
def handleDocInEntry (schemas : List (String × Schema)) (i : DocIn) :
    Except String (Option (String × Schema) × String) :=
  match i.object with
  | none => .error "reflect: call of reflect.Value.Type on zero Value"
  | some t0 =>
      let obj := derefPtr t0
      let name := obj.typeName
      if (alookup schemas name).isSome then
        .ok (none, name)
      else
        match obj with
        | GoType.structType _ fields =>
            .ok (some (name, Schema.withProps "object"
              (fields.foldl
                (fun props f => aset props f.1 (Schema.typeOnly f.2.2.typeName))
                [])), name)
        | _ => .error "reflect: NumField of non-struct type"

/-- The `handleDocIn` loop over the declared `In` map, accumulating
component schemas and the request body's per-content-type entries. -/
def handleDocInLoop (schemas : List (String × Schema)) :
    List (String × DocIn) → Option (List (String × Schema)) → Option RequestBody →
    Except String (Option (List (String × Schema)) × Option RequestBody)
  | [], comps, body => .ok (comps, body)
  | (contentType, i) :: rest, comps, body =>
      match handleDocInEntry schemas i with
      | .error e => .error e
      | .ok (compAdd, name) =>
          let comps :=
            match compAdd with
            | some (n, s) => some (aset (comps.getD []) n s)
            | none => comps
          let prev := body.getD { description := "", content := [], required := false }
          let media := MediaType.mk (some (Schema.refOnly ("#/components/schemas/" ++ name)))
          let body := some { prev with content := aset prev.content contentType media }
          handleDocInLoop schemas rest comps body

/-- `handleDocIn(do, schemas)`. -/
def handleDocIn (docIns : Option (List (String × DocIn)))
    (schemas : List (String × Schema)) :
    Except String (Option (List (String × Schema)) × Option RequestBody) :=
  match docIns with
  | none => .ok (none, none)
  | some entries => handleDocInLoop schemas entries none none

/-- `Router.OperationID(s)`: root fallback, split on `/`, strip the
placeholder braces from each segment, `strings.Title` it, concatenate. -/
def operationID (s : String) : String :=
  let s := if s = "" ∨ s = "/" then "root" else s
  let parts := splitChar '/' s.data
  let parts := parts.map
    (fun part =>
      if part = [] then part
      else goTitle (trimRightChar '}' (trimLeftChar '{' part)))
  String.mk parts.flatten

/-! ### Router registration and dispatch (router.go)

Concrete handlers — route handlers, status-override handlers, and the
handlers the environment synthesizes — are modelled as straight-line
sequences of response-writer operations; a middleware transforms such a
sequence.  That is all the generality the verified claims need, and it
keeps every dispatch computation kernel-evaluable. -/

inductive WriterOp where
  | setHeader (key value : String)
  | delHeader (key : String)
  | writeHeader (code : Nat)
  | write (data : String)
deriving DecidableEq, Repr

abbrev HandlerOps := List WriterOp

/-- `const HeaderFlagDoNotIntercept = "do_not_intercept"`. -/
def headerFlagDoNotIntercept : String := "do_not_intercept"

/-- One pattern registered in the host `http.ServeMux`; the method and
the path part of `method + " " + pattern` are kept separate. -/
structure MuxEntry where
  method : String
  pattern : String
  handler : HandlerOps

/-- The root-owned shared state: the host mux, the status-override
table, the OpenAPI registry (`Paths`, `patternMap`,
`Components.Schemas`) and the `sync.Once` guard, all reached through
`rootParent()` in the source. -/
structure RootState where
  mux : List MuxEntry
  handleStatus : List (Nat × HandlerOps)
  paths : List (String × PathItem)
  patternMap : List (String × String)
  schemas : List (String × Schema)
  onceDone : Bool

/-- Per-node configuration of one `Router` tree node. -/
structure RouterConfig where
  basePath : String
  middlewares : List (Middleware HandlerOps)
  redirectTrailingSlash : Bool
  openapiDocs : Bool

/-- `http.StatusTemporaryRedirect`, the `DefaultRedirectStatusCode`. -/
def defaultRedirectStatusCode : Nat := 307

/-- `ServeMux.Handle`: panics on an exact duplicate registration
(modelled for the literal patterns the claims exercise). -/
def muxHandle (mux : List MuxEntry) (method pattern : String) (h : HandlerOps) :
    Except String (List MuxEntry) :=
  if mux.any (fun e => e.method == method && e.pattern == pattern) then
    .error ("http: multiple registrations for " ++ method ++ " " ++ pattern)
  else
    .ok (mux ++ [⟨method, pattern, h⟩])

/-- The `componentSchema` merge loop of `registerDocs`:
skip names that already exist in the component store, write the rest. -/
def mergeSchemas (schemas : List (String × Schema)) :
    Option (List (String × Schema)) → List (String × Schema)
  | none => schemas
  | some comps =>
      comps.foldl
        (fun acc e => if (alookup acc e.1).isSome then acc else aset acc e.1 e.2)
        schemas

/-- `registerDocs(method, pattern, docs...)` of the `HandleStatus`
router: strips the `{$}` marker for the public path, records the
stripped-to-original mapping, reads the path item under the UNstripped
`pattern`, builds the operation, merges output then input schema
components (first name wins), and stores the item under `stripPattern`. -/
def registerDocs (root : RootState) (method pattern : String) (docs : List Docs) :
    Except String RootState :=
  match docs with
  | [] => .ok root
  | doc :: _ =>
      let stripPattern := String.mk (stripExactMarker pattern.data)
      let root := { root with patternMap := aset root.patternMap stripPattern pattern }
      let pathItem := (alookup root.paths pattern).getD PathItem.empty
      let op : Operation :=
        { tags := doc.tags
          summary := doc.summary
          description := doc.description
          operationID := method ++ operationID stripPattern
          parameters := doc.parameters
          requestBody := doc.requestBody
          responses := doc.responses
          security := doc.security }
      match handleDocOut doc.outDocs root.schemas with
      | .error e => .error e
      | .ok (componentSchema, routeResponse) =>
          let root := { root with schemas := mergeSchemas root.schemas componentSchema }
          let op :=
            match routeResponse with
            | some rr => { op with responses := rr }
            | none => op
          match handleDocIn doc.inDocs root.schemas with
          | .error e => .error e
          | .ok (componentSchema2, requestBody) =>
              let root := { root with schemas := mergeSchemas root.schemas componentSchema2 }
              let op :=
                match requestBody with
                | some rb => { op with requestBody := some rb }
                | none => op
              .ok { root with
                paths := aset root.paths stripPattern (pathItem.setMethod method op) }

/-- `Router.handle(method, pattern, handler, docs...)`: prepends the
node's base path, defaults the empty pattern to `/`, ensures a leading
slash, wraps the handler in the node's middleware list
(`registerRoute`), registers it with the mux, and forwards to
`registerDocs` when documentation is enabled. -/
def handle (cfg : RouterConfig) (root : RootState) (method pattern : String)
    (handler : HandlerOps) (docs : List Docs) : Except String RootState :=
  let pattern := if cfg.basePath ≠ "" then cfg.basePath ++ pattern else pattern
  let pattern :=
    if pattern = "" then "/"
    else if pattern.data.headD ' ' ≠ '/' then "/" ++ pattern
    else pattern
  let finalHandler := wrapMiddlewares cfg.middlewares handler
  match muxHandle root.mux method pattern finalHandler with
  | .error e => .error e
  | .ok mux =>
      let root := { root with mux := mux }
      if cfg.openapiDocs then registerDocs root method pattern docs else .ok root

/-- `Router.Group(basePath, fn)`: the child node's configuration — base
paths concatenate, the middleware list is a snapshot copy, the flags are
inherited; the shared registry is reached through the parent link. -/
def groupConfig (parent : RouterConfig) (basePath : String) : RouterConfig :=
  { basePath := parent.basePath ++ basePath
    middlewares := groupMiddlewares parent.middlewares
    redirectTrailingSlash := parent.redirectTrailingSlash
    openapiDocs := parent.openapiDocs }

/-- `getMethodsForPattern(pattern)`: reads the documentation registry
(never the mux) under the request's exact path and collects, in fixed
order, the methods among GET/POST/PUT/DELETE/PATCH whose operation is
recorded there. -/
def getMethodsForPattern (root : RootState) (pattern : String) : List String :=
  match alookup root.paths pattern with
  | none => []
  | some routeInfo =>
      let methods : List String := []
      let methods := if routeInfo.get.isSome then addIfMissing methods "GET" false else methods
      let methods := if routeInfo.post.isSome then addIfMissing methods "POST" false else methods
      let methods := if routeInfo.put.isSome then addIfMissing methods "PUT" false else methods
      let methods := if routeInfo.delete.isSome then addIfMissing methods "DELETE" false else methods
      let methods := if routeInfo.patch.isSome then addIfMissing methods "PATCH" false else methods
      methods

/-- The body of the lazily installed discovery handler: set `Allow`,
reply 204 No Content, write no body. -/
def optionsHandlerOps (methods : List String) : HandlerOps :=
  [WriterOp.setHeader "Allow" (String.intercalate ", " methods),
   WriterOp.writeHeader 204]

/-- `registerOptionsHandler(strippedPattern)`: translate back to the
original pattern via `patternMap`, bail out when the path item (looked
up under the original pattern) is missing or has no methods, then
install the discovery handler with OPTIONS prepended to the method
set. -/
def registerOptionsHandler (root : RootState) (strippedPattern : String) :
    Except String RootState :=
  let pattern := (alookup root.patternMap strippedPattern).getD strippedPattern
  match alookup root.paths pattern with
  | none => .ok root
  | some routeInfo =>
      if routeInfo.methods = [] then .ok root
      else
        let methods := addIfMissing routeInfo.methods "OPTIONS" true
        match muxHandle root.mux "OPTIONS" pattern (optionsHandlerOps methods) with
        | .error e => .error e
        | .ok mux => .ok { root with mux := mux }

/-- The body of `r.once.Do(...)` in `ServeHTTP`: one
`registerOptionsHandler` call per known documentation path. -/
def synthesizeOptionsLoop (root : RootState) : List String → Except String RootState
  | [] => .ok root
  | p :: rest =>
      match registerOptionsHandler root p with
      | .error e => .error e
      | .ok r2 => synthesizeOptionsLoop r2 rest

def synthesizeOptions (root : RootState) : Except String RootState :=
  synthesizeOptionsLoop root (root.paths.map (fun e => e.1))

/-! ### Dispatch through the interceptor pair

The response writer stack of one request: the client-facing writer (a
header map plus the events that reached the wire), wrapped by
`excludeHeaderWriter`, wrapped by `routingStatusInterceptWriter`.  The
`Header()` method is promoted from the innermost writer, so all three
layers share one header map. -/

structure ResponseState where
  headers : List (String × String)
  wire : List WriterEvent
deriving DecidableEq, Repr

/-- `Header().Get(k)`: the empty string when the key is absent. -/
def getHeader (hs : List (String × String)) (k : String) : String :=
  (alookup hs k).getD ""

/-- Effect of one writer operation at the `excludeHeaderWriter` layer,
where the status-override handlers run: `WriteHeader` deletes the
sentinel header before forwarding. -/
def stepExclude (st : ResponseState) : WriterOp → ResponseState
  | .setHeader k v => { st with headers := aset st.headers k v }
  | .delHeader k => { st with headers := adel st.headers k }
  | .writeHeader c =>
      { headers := adel st.headers headerFlagDoNotIntercept
        wire := st.wire ++ [WriterEvent.statusLine c] }
  | .write data => { st with wire := st.wire ++ [WriterEvent.chunk data] }

def runExclude (ops : HandlerOps) (st : ResponseState) : ResponseState :=
  ops.foldl stepExclude st

/-- Interceptor state during delegated dispatch. -/
structure DispatchState where
  resp : ResponseState
  statusCode : Nat
  intercepted : Bool
deriving DecidableEq, Repr

/-- Effect of one writer operation at the interceptor layer, where the
delegated handlers run.  The predicate installed for a status code is
`v != nil && w.Header().Get(HeaderFlagDoNotIntercept) == ""`, evaluated
against the shared header map at `WriteHeader` time. -/
def stepIntercept (hs : List (Nat × HandlerOps)) (st : DispatchState) :
    WriterOp → DispatchState
  | .setHeader k v => { st with resp := { st.resp with headers := aset st.resp.headers k v } }
  | .delHeader k => { st with resp := { st.resp with headers := adel st.resp.headers k } }
  | .writeHeader c =>
      if st.intercepted then st
      else
        let st := { st with statusCode := c }
        if (alookup hs c).isSome &&
            (getHeader st.resp.headers headerFlagDoNotIntercept == "") then
          { st with intercepted := true }
        else
          { st with resp := stepExclude st.resp (WriterOp.writeHeader c) }
  | .write data =>
      if st.intercepted then st
      else { st with resp := { st.resp with wire := st.resp.wire ++ [WriterEvent.chunk data] } }

def runIntercept (hs : List (Nat × HandlerOps)) (st : DispatchState)
    (ops : HandlerOps) : DispatchState :=
  ops.foldl (stepIntercept hs) st

/-! ### The host multiplexer (environment model)

`http.ServeMux` of Go 1.22, restricted to the literal patterns the
claims exercise: a request either hits the handler registered for its
method and path; or, when the path is registered only under other
methods, gets the mux's built-in 405 — which sets a sorted `Allow`
header from the registered methods (`ServeMux.matchingMethods`) and then
runs `http.Error`; or gets the built-in 404. -/

def muxFind (mux : List MuxEntry) (method path : String) : Option HandlerOps :=
  (mux.find? (fun e => e.method == method && e.pattern == path)).map
    (fun e => e.handler)

def muxPathKnown (mux : List MuxEntry) (path : String) : Bool :=
  mux.any (fun e => e.pattern == path)

/-- Insertion sort on strings, standing in for `slices.Sort`. -/
def insertSorted (s : String) : List String → List String
  | [] => [s]
  | x :: rest => if s ≤ x then s :: x :: rest else x :: insertSorted s rest

def sortStrings (l : List String) : List String :=
  l.foldr insertSorted []

/-- `ServeMux.matchingMethods`: the sorted set of methods under which
the path is registered. -/
def muxAllowedMethods (mux : List MuxEntry) (path : String) : List String :=
  sortStrings
    (((mux.filter (fun e => e.pattern == path)).map (fun e => e.method)).foldl
      (fun acc m => if m ∈ acc then acc else acc ++ [m]) [])

/-- `http.Error(w, text, code)`: content-type headers, the status line,
the message plus a newline. -/
def httpErrorOps (text : String) (code : Nat) : HandlerOps :=
  [WriterOp.setHeader "Content-Type" "text/plain; charset=utf-8",
   WriterOp.setHeader "X-Content-Type-Options" "nosniff",
   WriterOp.writeHeader code,
   WriterOp.write (text ++ "\n")]

structure Request where
  method : String
  path : String

/-- `mux.ServeHTTP(interceptor, req)` under the environment model. -/
def muxServe (mux : List MuxEntry) (hs : List (Nat × HandlerOps))
    (st : DispatchState) (req : Request) : DispatchState :=
  match muxFind mux req.method req.path with
  | some h => runIntercept hs st h
  | none =>
      if muxPathKnown mux req.path then
        runIntercept hs st
          (WriterOp.setHeader "Allow"
              (String.intercalate ", " (muxAllowedMethods mux req.path)) ::
            httpErrorOps "Method Not Allowed" 405)
      else
        runIntercept hs st (httpErrorOps "404 page not found" 404)

/-- Result of one `ServeHTTP` call. -/
inductive ServeOutcome where
  | redirected (target : String) (code : Nat) (resp : ResponseState)
  | completed (resp : ResponseState)
deriving DecidableEq, Repr

/-- The dispatch tail of `ServeHTTP`: build the interceptor pair, let
the mux dispatch, then — when intercepted — run the override for the
recorded status against the `excludeHeaderWriter`, computing the `Allow`
header from the documentation registry first in the 405 case. -/
def dispatch (root : RootState) (req : Request) (w : ResponseState) :
    Except String ServeOutcome :=
  let st : DispatchState := { resp := w, statusCode := 0, intercepted := false }
  let st := muxServe root.mux root.handleStatus st req
  if st.intercepted then
    if st.statusCode = 405 then
      let allowedMethods := getMethodsForPattern root req.path
      let allowJoined := String.intercalate ", " allowedMethods
      let resp :=
        if allowedMethods ≠ [] then
          { st.resp with headers := aset st.resp.headers "Allow" allowJoined }
        else st.resp
      match alookup root.handleStatus 405 with
      | some h => .ok (.completed (runExclude h resp))
      | none => .error "runtime error: invalid memory address or nil pointer dereference"
    else
      match alookup root.handleStatus st.statusCode with
      | some h => .ok (.completed (runExclude h st.resp))
      | none => .ok (.completed st.resp)
  else
    .ok (.completed st.resp)

/-- The `r.once.Do` prologue of `ServeHTTP`: on the first call with
documentation enabled, install the discovery handlers and mark the
one-shot guard. -/
def serveSynth (cfg : RouterConfig) (root : RootState) : Except String RootState :=
  if cfg.openapiDocs ∧ ¬root.onceDone then
    (synthesizeOptions root).map (fun r => { r with onceDone := true })
  else .ok root

/-- `http.Redirect(w, req, target, code)` as far as the wrapped writer
observes it before the handler returns: the `Location` header is set.
(The status line and the optional HTML body go through the original
writer and are irrelevant to the verified claims.) -/
def redirectResponse (w : ResponseState) (target : String) : ResponseState :=
  { w with headers := aset w.headers "Location" target }

/-- `ServeHTTP(w, req)` of the root node: the lazy synthesis prologue,
then either redirect a trailing-slash request or dispatch.  Go's
`req.URL.Path[len(req.URL.Path)-1]` panics on an empty path, modelled by
`Except.error`. -/
def serve (cfg : RouterConfig) (root : RootState) (req : Request)
    (w : ResponseState) : Except String (RootState × ServeOutcome) :=
  match serveSynth cfg root with
  | .error e => .error e
  | .ok root =>
      if cfg.redirectTrailingSlash then
        if req.path ≠ "/" then
          match req.path.data.getLast? with
          | none => .error "runtime error: index out of range [-1]"
          | some c =>
              if c = '/' then
                let target := String.mk (req.path.data.dropLast)
                .ok (root, .redirected target defaultRedirectStatusCode
                  (redirectResponse w target))
              else
                (dispatch root req w).map (fun o => (root, o))
        else
          (dispatch root req w).map (fun o => (root, o))
      else
        (dispatch root req w).map (fun o => (root, o))

/-! ### Association-list lemmas -/

theorem alookup_aset_self {κ α : Type} [DecidableEq κ] (m : List (κ × α)) (k : κ) (v : α) :
    alookup (aset m k v) k = some v := by
  induction m with
  | nil => simp [aset, alookup]
  | cons e rest ih =>
      by_cases h : e.1 = k
      · simp [aset, h, alookup]
      · simp [aset, h, alookup, ih]

theorem alookup_aset_ne {κ α : Type} [DecidableEq κ] (m : List (κ × α)) (k key : κ) (v : α)
    (h : k ≠ key) : alookup (aset m k v) key = alookup m key := by
  induction m with
  | nil => simp [aset, alookup, h]
  | cons e rest ih =>
      by_cases he : e.1 = k
      · simp [aset, he, alookup, h]
      · simp [aset, he, alookup, ih]

theorem getHeader_aset_ne (hs : List (String × String)) (k key v : String)
    (h : k ≠ key) : getHeader (aset hs k v) key = getHeader hs key := by
  simp [getHeader, alookup_aset_ne hs k key v h]

theorem filter_aset_ne {κ α : Type} [DecidableEq κ] (m : List (κ × α)) (k key : κ) (v : α)
    (h : k ≠ key) :
    (aset m k v).filter (fun e => e.1 == key) = m.filter (fun e => e.1 == key) := by
  induction m with
  | nil =>
      have h1 : (k == key) = false := beq_eq_false_iff_ne.mpr h
      simp [aset, List.filter, h1]
  | cons e rest ih =>
      obtain ⟨a, b⟩ := e
      by_cases he : a = k
      · have h1 : (k == key) = false := beq_eq_false_iff_ne.mpr h
        have h2 : (a == key) = false := beq_eq_false_iff_ne.mpr (he ▸ h)
        simp only [aset, if_pos he]
        simp [List.filter, h1, h2]
      · simp only [aset, if_neg he]
        by_cases hek : a = key
        · have h2 : (a == key) = true := beq_iff_eq.mpr hek
          simp [List.filter, h2, ih]
        · have h2 : (a == key) = false := beq_eq_false_iff_ne.mpr hek
          simp [List.filter, h2, ih]

theorem acount_aset_ne {κ α : Type} [DecidableEq κ] (m : List (κ × α)) (k key : κ) (v : α)
    (h : k ≠ key) : acount (aset m k v) key = acount m key := by
  simp only [acount, filter_aset_ne m k key v h]

/-! ### Claim theorems -/

/-- C2.  Middleware composition contract: (1) composing a parent list
concatenated with a child list wraps every parent (ancestor) middleware
around every child (descendant) one, regardless of what the child added;
(2) a child created by `Group` and extended by any sequence of `Use`
calls carries exactly the parent snapshot followed by its own additions
in order; (3) on the trace instantiation, middleware added earliest
observes the request first and the response last. -/
theorem middleware_composition_contract :
    (∀ (H : Type) (parent child : List (Middleware H)) (h : H),
      wrapMiddlewares (parent ++ child) h =
        wrapMiddlewares parent (wrapMiddlewares child h)) ∧
    (∀ (H : Type) (parent added : List (Middleware H)),
      added.foldl useMiddleware (groupMiddlewares parent) = parent ++ added) ∧
    (∀ (names : List String) (t : List String),
      wrapMiddlewares (names.map traceMiddleware) traceBaseHandler t =
        t ++ names.map (fun n => n ++ ".req") ++ ["handler"] ++
          names.reverse.map (fun n => n ++ ".res")) := by
  refine ⟨?_, ?_, ?_⟩
  · intro H parent child h
    induction parent with
    | nil => rfl
    | cons m rest ih => simp [wrapMiddlewares, ih]
  · intro H parent added
    induction added generalizing parent with
    | nil => simp [groupMiddlewares]
    | cons m rest ih =>
        have h2 := ih (parent ++ [m])
        simp only [List.foldl_cons, groupMiddlewares, useMiddleware] at h2 ⊢
        simp [h2]
  · intro names
    induction names with
    | nil => intro t; simp [wrapMiddlewares, traceBaseHandler]
    | cons n rest ih =>
        intro t
        simp only [List.map_cons, wrapMiddlewares, traceMiddleware, ih,
          List.reverse_cons, List.map_append, List.map_cons, List.map_nil]
        simp [List.append_assoc]

/-- C7 (counterexample).  An intercepted writer that is handed one byte
of body reports 0 bytes written, not the full length the claim
promises; the bytes are discarded with no error. -/
theorem intercepted_write_counterexample :
    RoutingStatusInterceptWriter.write ⟨[], [(405, true)], 405, true⟩ "x" =
      (⟨[], [(405, true)], 405, true⟩, 0, none) ∧
    ("x".length ≠ 0) := by
  constructor
  · rfl
  · decide

/-- C7 (amended).  `write` on an intercepted writer discards the bytes
— the inner writer is untouched — and returns count 0 with a nil error
(not the byte count); on a non-intercepted writer it forwards the bytes
unchanged and reports the full count with no error. -/
theorem intercepted_write_amended (w : RoutingStatusInterceptWriter) (data : String) :
    (w.intercepted = true → w.write data = (w, 0, none)) ∧
    (w.intercepted = false →
      w.write data =
        ({ w with inner := w.inner ++ [WriterEvent.chunk data] }, data.length, none)) := by
  constructor
  · intro h
    simp [RoutingStatusInterceptWriter.write, h]
  · intro h
    simp [RoutingStatusInterceptWriter.write, h]

theorem intercepted_write_amended_witness :
    (RoutingStatusInterceptWriter.write ⟨[], [], 200, true⟩ "ab" =
      (⟨[], [], 200, true⟩, 0, none)) ∧
    (RoutingStatusInterceptWriter.write ⟨[], [], 200, false⟩ "ab" =
      (⟨[WriterEvent.chunk "ab"], [], 200, false⟩, 2, none)) :=
  ⟨(intercepted_write_amended ⟨[], [], 200, true⟩ "ab").1 rfl,
   (intercepted_write_amended ⟨[], [], 200, false⟩ "ab").2 rfl⟩

/-- C8 (counterexample).  The forwarded state is not terminal: after a
first `WriteHeader(200)` forwarded the status line (state `forwarded`,
recorded status 200), a second `WriteHeader(404)` against a map holding
a matching predicate for 404 overwrites the recorded status with 404
and moves the writer to `intercepted`. -/
theorem intercept_state_machine_counterexample :
    (RoutingStatusInterceptWriter.writeHeader ⟨[], [(404, true)], 0, false⟩ 200 =
      ⟨[WriterEvent.statusLine 200], [(404, true)], 200, false⟩) ∧
    (RoutingStatusInterceptWriter.writeHeader
        ⟨[WriterEvent.statusLine 200], [(404, true)], 200, false⟩ 404 =
      ⟨[WriterEvent.statusLine 200], [(404, true)], 404, true⟩) := by
  constructor <;> decide

/-- C8 (amended).  Only `intercepted` is terminal: an intercepted writer
ignores every further `writeHeader` sequence.  A non-intercepted writer
— idle or already forwarded — always records the new status code and
transitions to `intercepted` exactly when some map entry for that code
has a true predicate, forwarding the status line otherwise. -/
theorem intercept_state_machine_amended (w : RoutingStatusInterceptWriter) :
    (w.intercepted = true → ∀ codes : List Nat,
      codes.foldl RoutingStatusInterceptWriter.writeHeader w = w) ∧
    (w.intercepted = false → ∀ code : Nat,
      (w.interceptMap.any (fun e => e.1 == code && e.2) = true →
        w.writeHeader code = { w with statusCode := code, intercepted := true }) ∧
      (w.interceptMap.any (fun e => e.1 == code && e.2) = false →
        w.writeHeader code =
          { w with statusCode := code,
                   inner := w.inner ++ [WriterEvent.statusLine code] })) := by
  constructor
  · intro h codes
    induction codes with
    | nil => rfl
    | cons c rest ih =>
        have hstep : w.writeHeader c = w := by
          simp [RoutingStatusInterceptWriter.writeHeader, h]
        simp [List.foldl_cons, hstep, ih]
  · intro h code
    constructor
    · intro hmatch
      simp [RoutingStatusInterceptWriter.writeHeader, h, hmatch]
    · intro hmatch
      simp [RoutingStatusInterceptWriter.writeHeader, h, hmatch]

theorem intercept_state_machine_amended_witness :
    ((([404, 200, 500] : List Nat).foldl RoutingStatusInterceptWriter.writeHeader
        ⟨[], [(404, true)], 404, true⟩) = ⟨[], [(404, true)], 404, true⟩) ∧
    (RoutingStatusInterceptWriter.writeHeader ⟨[], [(404, true)], 0, false⟩ 404 =
      ⟨[], [(404, true)], 404, true⟩) :=
  ⟨(intercept_state_machine_amended ⟨[], [(404, true)], 404, true⟩).1 rfl [404, 200, 500],
   ((intercept_state_machine_amended ⟨[], [(404, true)], 0, false⟩).2 rfl 404).1 rfl⟩

/-- Preservation of an existing component entry by the registerDocs
merge loop: a name that is already bound keeps its binding and its
multiplicity, because the loop skips every name it finds taken. -/
theorem mergeSchemas_preserve (schemas : List (String × Schema))
    (comps : Option (List (String × Schema))) (n : String) (s : Schema)
    (h : alookup schemas n = some s) :
    alookup (mergeSchemas schemas comps) n = some s ∧
    acount (mergeSchemas schemas comps) n = acount schemas n := by
  cases comps with
  | none => exact ⟨h, rfl⟩
  | some l =>
      induction l generalizing schemas with
      | nil => exact ⟨h, rfl⟩
      | cons e rest ih =>
          by_cases hx : (alookup schemas e.1).isSome
          · have step := ih schemas h
            simp only [mergeSchemas, List.foldl_cons, hx, if_true] at step ⊢
            exact step
          · have hne : e.1 ≠ n := by
              intro hEq
              rw [hEq, h] at hx
              simp at hx
            have h2 : alookup (aset schemas e.1 e.2) n = some s := by
              rw [alookup_aset_ne _ _ _ _ hne]; exact h
            have step := ih (aset schemas e.1 e.2) h2
            simp only [mergeSchemas, List.foldl_cons, hx, if_false] at step ⊢
            refine ⟨step.1, step.2.trans ?_⟩
            exact acount_aset_ne _ _ _ _ hne

/-- The zero-value root shared state of a fresh router. -/
def emptyRoot : RootState :=
  ⟨[], [], [], [], [], false⟩

/-- C5.  Schema components are first-wins forever: once a registration
has bound a structural type name in the component store, any later
route registration — whatever sample shapes it declares, inputs or
outputs — leaves that binding and its multiplicity untouched. -/
theorem schema_first_wins (root : RootState) (method pattern : String)
    (docs : List Docs) (name : String) (s : Schema) (root2 : RootState)
    (hfirst : alookup root.schemas name = some s)
    (hreg : registerDocs root method pattern docs = .ok root2) :
    alookup root2.schemas name = some s ∧
    acount root2.schemas name = acount root.schemas name := by
  cases docs with
  | nil =>
      simp only [registerDocs, Except.ok.injEq] at hreg
      rw [← hreg]
      exact ⟨hfirst, rfl⟩
  | cons doc rest =>
      simp only [registerDocs] at hreg
      split at hreg
      · exact absurd hreg (by simp)
      · rename_i cs rr hOut
        split at hreg
        · exact absurd hreg (by simp)
        · rename_i cs2 rb hIn
          simp only [Except.ok.injEq] at hreg
          subst hreg
          have m1 := mergeSchemas_preserve root.schemas cs name s hfirst
          have m2 := mergeSchemas_preserve (mergeSchemas root.schemas cs) cs2
            name s m1.1
          exact ⟨m2.1, m2.2.trans m1.2⟩

def c5out1 : GoType :=
  GoType.structType "User"
    [("ID", "", GoType.prim GoKind.intKind "int"),
     ("Name", "", GoType.prim GoKind.stringKind "string")]

def c5out2 : GoType :=
  GoType.structType "User"
    [("Email", "", GoType.prim GoKind.stringKind "string")]

def c5docs (t : GoType) : Docs :=
  { Docs.empty with outDocs := some [("200", ⟨"application/json", "ok", some t⟩)] }

def c5Root1 : RootState :=
  (registerDocs emptyRoot "GET" "/a" [c5docs c5out1]).toOption.getD emptyRoot

/-- The schema the first registration derives for `User{ID,Name}`. -/
def c5S1 : Schema :=
  Schema.withProps "object"
    [("ID", Schema.typeOnly "integer"), ("Name", Schema.typeOnly "string")]

def c5Root2 : RootState :=
  (registerDocs c5Root1 "POST" "/b" [c5docs c5out2]).toOption.getD c5Root1

theorem schema_first_wins_witness :
    alookup c5Root2.schemas "User" = some c5S1 ∧
    acount c5Root2.schemas "User" = acount c5Root1.schemas "User" :=
  schema_first_wins c5Root1 "POST" "/b" [c5docs c5out2] "User" c5S1 c5Root2
    (by rfl) (by rfl)

/-- C3 (code bug).  Registering two methods on the same normalized path
through a pattern containing the exact-match marker: `registerDocs`
reads the path item under the UNstripped pattern but writes it under
the stripped one, so the second registration misses the stored
descriptor and overwrites it.  After `GET /x/{$}` then `POST /x/{$}`
(documentation enabled), the registry holds exactly one descriptor, at
the normalized path `/x/` — but its GET operation is gone and only POST
remains, contradicting the accumulate-into-one-descriptor invariant. -/
theorem docs_registry_marker_bug :
    ((handle ⟨"", [], false, true⟩ emptyRoot "GET" "/x/{$}" [] [Docs.empty]).bind
      (fun r1 => handle ⟨"", [], false, true⟩ r1 "POST" "/x/{$}" [] [Docs.empty])).toOption.map
      (fun r2 => (r2.paths.map (fun e => e.1),
        (alookup r2.paths "/x/").map (fun pi => (pi.get.isSome, pi.post.isSome)))) =
    some (["/x/"], some (false, true)) := by decide

/-- C6 (counterexample).  A declared sample whose value is a top-level
primitive — here an `int` — makes output translation fail hard: the
translator reaches `NumField` on a non-struct value and panics, so
registration does not complete normally. -/
theorem doc_out_translation_counterexample :
    handleDocOut
      (some [("200", ⟨"application/json", "", some (GoType.prim GoKind.intKind "int")⟩)])
      [] = .error "reflect: NumField of non-struct type" := by rfl

/-- C6 (amended).  Output translation completes normally for a nil
sample (no schema, no component) and for any sample whose
pointer-dereferenced value is a struct — registering it under its type
name unless the name is already taken; and every field kind outside
string/integer/number/boolean/struct/slice degrades to the `"string"`
placeholder.  (Samples whose value is not a struct, pointer-to-struct,
or slice of structs fail hard instead; see the counterexample.) -/
theorem doc_out_translation_amended :
    (∀ (schemas : List (String × Schema)) (ct ds : String),
      handleDocOutEntry schemas ⟨ct, ds, none⟩ = .ok (none, none)) ∧
    (∀ (schemas : List (String × Schema)) (ct ds nm : String)
        (fields : List (String × String × GoType)),
      handleDocOutEntry schemas ⟨ct, ds, some (GoType.structType nm fields)⟩ =
        .ok (if (alookup schemas nm).isSome then
               (none, some (Schema.refOnly ("#/components/schemas/" ++ nm)))
             else
               (some (nm, Schema.withProps "object" (outProperties fields)),
                some (Schema.refOnly ("#/components/schemas/" ++ nm))))) ∧
    (∀ k : GoKind, k = GoKind.ptrKind ∨ k = GoKind.otherKind →
      kindSchemaType k = "string") := by
  refine ⟨?_, ?_, ?_⟩
  · intro schemas ct ds
    rfl
  · intro schemas ct ds nm fields
    by_cases h : (alookup schemas nm).isSome <;>
      simp [handleDocOutEntry, derefPtr, GoType.typeName, h]
  · intro k hk
    rcases hk with h | h <;> rw [h] <;> rfl

theorem doc_out_translation_amended_witness :
    kindSchemaType GoKind.ptrKind = "string" :=
  doc_out_translation_amended.2.2 GoKind.ptrKind (Or.inl rfl)

/-- C9 (counterexample).  For the sample `User{ID int `json:"id"`}` the
output path derives the property map `{id: integer}` (alias honoured,
kind mapped) while the input path derives `{ID: int}` (raw field name,
raw type name) — the two translations are not structurally identical. -/
theorem input_translation_counterexample :
    ((handleDocOutEntry []
        ⟨"application/json", "",
          some (GoType.structType "User" [("ID", "id", GoType.prim GoKind.intKind "int")])⟩).toOption.map
      (fun r => r.1.map (fun e => (e.1, propTypes e.2.properties))) =
      some (some ("User", [("id", "integer")]))) ∧
    ((handleDocInEntry []
        ⟨some (GoType.structType "User" [("ID", "id", GoType.prim GoKind.intKind "int")]), false⟩).toOption.map
      (fun r => r.1.map (fun e => (e.1, propTypes e.2.properties))) =
      some (some ("User", [("ID", "int")]))) ∧
    ([("id", "integer")] ≠ ([("ID", "int")] : List (String × String))) := by
  refine ⟨by rfl, by rfl, by decide⟩

/-- C9 (amended).  Input translation shares the output path's top-level
structure — dedup by structural type name against the component store,
an object-typed component, the same component reference — but derives
properties from the raw Go field names (serialization aliases are
ignored) with the raw Go type name as the property type, and it has no
nil-sample guard: a nil declared input sample fails hard. -/
theorem input_translation_amended :
    (∀ (schemas : List (String × Schema)) (nm : String)
        (fields : List (String × String × GoType)) (req : Bool),
      handleDocInEntry schemas ⟨some (GoType.structType nm fields), req⟩ =
        .ok (if (alookup schemas nm).isSome then (none, nm)
             else
               (some (nm, Schema.withProps "object"
                 (fields.foldl
                   (fun props f => aset props f.1 (Schema.typeOnly f.2.2.typeName)) [])),
                nm))) ∧
    (∀ (schemas : List (String × Schema)) (req : Bool),
      handleDocInEntry schemas ⟨none, req⟩ =
        .error "reflect: call of reflect.Value.Type on zero Value") := by
  constructor
  · intro schemas nm fields req
    by_cases h : (alookup schemas nm).isSome <;>
      simp [handleDocInEntry, derefPtr, GoType.typeName, h]
  · intro schemas req
    rfl

/-! ### C4: the discovery (OPTIONS) response -/

def c4Root : RootState :=
  ((handle ⟨"", [], false, true⟩ emptyRoot "GET" "/x" [] [Docs.empty]).bind
    (fun r1 => handle ⟨"", [], false, true⟩ r1 "HEAD" "/x" [] [Docs.empty])).toOption.getD
    emptyRoot

/-- C4 (counterexample).  With GET and HEAD both registered (with
documentation) on `/x`, first dispatch installs a discovery handler
whose `Allow` header reads `OPTIONS, GET`: HEAD is a registered method
for the path, yet it is absent from the discovery response, because
`PathItem.SetMethod` silently drops HEAD registrations. -/
theorem discovery_response_counterexample :
    ((synthesizeOptions c4Root).toOption.map (fun r => muxFind r.mux "OPTIONS" "/x") =
      some (some (optionsHandlerOps ["OPTIONS", "GET"]))) ∧
    (runExclude (optionsHandlerOps ["OPTIONS", "GET"]) ⟨[], []⟩ =
      ⟨[("Allow", "OPTIONS, GET")], [WriterEvent.statusLine 204]⟩) ∧
    ("HEAD" ∈ (c4Root.mux.filter (fun e => e.pattern == "/x")).map (fun e => e.method)) ∧
    ("HEAD" ∉ ["OPTIONS", "GET"]) := by
  refine ⟨by decide, by decide, by decide, by decide⟩

/-- C4 (amended).  The discovery handler replies with an empty body (no
write, only the 204 status line) and an `Allow` header holding OPTIONS
followed by exactly the methods recorded in the path's documentation
descriptor — each exactly once; and it is installed for every known
path whose descriptor is reachable and non-empty.  The descriptor can
only record GET/POST/PUT/DELETE/PATCH, so methods registered as HEAD
(or OPTIONS) never appear. -/
theorem discovery_response_amended :
    (∀ (pi : PathItem) (st : ResponseState),
      runExclude (optionsHandlerOps (addIfMissing pi.methods "OPTIONS" true)) st =
        ⟨adel (aset st.headers "Allow"
            (String.intercalate ", " (addIfMissing pi.methods "OPTIONS" true)))
          headerFlagDoNotIntercept,
         st.wire ++ [WriterEvent.statusLine 204]⟩) ∧
    (∀ pi : PathItem,
      addIfMissing pi.methods "OPTIONS" true = "OPTIONS" :: pi.methods ∧
      ("OPTIONS" :: pi.methods).Nodup) ∧
    (∀ (root : RootState) (sp pat : String) (pi : PathItem),
      alookup root.patternMap sp = some pat →
      alookup root.paths pat = some pi →
      pi.methods ≠ [] →
      root.mux.any (fun e => e.method == "OPTIONS" && e.pattern == pat) = false →
      registerOptionsHandler root sp =
        .ok { root with mux := root.mux ++
          [⟨"OPTIONS", pat, optionsHandlerOps (addIfMissing pi.methods "OPTIONS" true)⟩] }) := by
  refine ⟨?_, ?_, ?_⟩
  · intro pi st
    rfl
  · intro pi
    obtain ⟨g, p, u, d, pa⟩ := pi
    cases g <;> cases p <;> cases u <;> cases d <;> cases pa <;>
      simp [PathItem.methods, addIfMissing]
  · intro root sp pat pi h1 h2 h3 h4
    simp [registerOptionsHandler, h1, h2, h3, muxHandle, h4]

def w4pi : PathItem :=
  { PathItem.empty with get := some Operation.empty }

def w4root : RootState :=
  ⟨[], [], [("/x", w4pi)], [("/x", "/x")], [], false⟩

theorem discovery_response_amended_witness :
    registerOptionsHandler w4root "/x" =
      .ok { w4root with mux := [⟨"OPTIONS", "/x", optionsHandlerOps ["OPTIONS", "GET"]⟩] } :=
  discovery_response_amended.2.2 w4root "/x" "/x" w4pi rfl rfl (by decide) rfl

/-! ### C1: the Allow header on intercepted 405 responses -/

/-- The amended `Allow` policy on an intercepted 405: the host
multiplexer first sets the sorted list of mux-registered methods (plus
`http.Error` content-type headers); the router then overwrites `Allow`
with the documentation registry's method set for the exact request path
whenever that set is non-empty, and leaves the multiplexer's value
standing otherwise. -/
def amendedAllow405Headers (root : RootState) (req : Request)
    (hs : List (String × String)) : List (String × String) :=
  let base :=
    aset (aset (aset hs "Allow"
        (String.intercalate ", " (muxAllowedMethods root.mux req.path)))
      "Content-Type" "text/plain; charset=utf-8") "X-Content-Type-Options" "nosniff"
  let docMethods := getMethodsForPattern root req.path
  if docMethods ≠ [] then
    aset base "Allow" (String.intercalate ", " docMethods)
  else base

/-- Observation helper: the `Allow` header of a completed serve. -/
def allowOfOutcome : Except String (RootState × ServeOutcome) → Option String
  | .ok (_, .completed resp) => some (getHeader resp.headers "Allow")
  | _ => none

def c1ov : HandlerOps := [WriterOp.write "custom 405"]

def c1Root : RootState :=
  ((handle ⟨"", [], false, true⟩ ⟨[], [(405, c1ov)], [], [], [], false⟩
      "GET" "/x" [] [Docs.empty]).bind
    (fun r1 => handle ⟨"", [], false, true⟩ r1 "HEAD" "/x" [] [Docs.empty])).toOption.getD
    ⟨[], [(405, c1ov)], [], [], [], false⟩

/-- C1 (counterexample).  GET and HEAD are registered (with
documentation) on `/x` and a 405 override is installed.  A DELETE to
`/x` invokes the override, but the `Allow` header it sees is `GET`:
the documentation registry dropped HEAD, and its non-empty method set
overwrote the correct sorted header the multiplexer had set.  The
header is not the registered method set. -/
theorem allow_header_405_counterexample :
    (allowOfOutcome (serve ⟨"", [], false, true⟩ c1Root ⟨"DELETE", "/x"⟩ ⟨[], []⟩) =
      some "GET") ∧
    (c1Root.mux.map (fun e => (e.method, e.pattern)) = [("GET", "/x"), ("HEAD", "/x")]) ∧
    ("HEAD" ∈ (c1Root.mux.filter (fun e => e.pattern == "/x")).map (fun e => e.method)) ∧
    ("HEAD" ∉ ["GET"]) := by
  refine ⟨by decide, by decide, by decide, by decide⟩

/-- C1 (amended).  When the request's method has no mux registration
for its path but the path is known under other methods, and a 405
override is installed and the sentinel header is absent, dispatch
invokes the override against a writer whose `Allow` header follows the
amended policy (documentation set when non-empty, otherwise the
multiplexer's sorted registered set) and whose wire carries nothing
from the multiplexer's swallowed default response. -/
theorem allow_header_405_amended (root : RootState) (req : Request)
    (w : ResponseState) (ov : HandlerOps)
    (hov : alookup root.handleStatus 405 = some ov)
    (hmiss : muxFind root.mux req.method req.path = none)
    (hknown : muxPathKnown root.mux req.path = true)
    (hflag : getHeader w.headers headerFlagDoNotIntercept = "") :
    dispatch root req w =
      .ok (.completed (runExclude ov ⟨amendedAllow405Headers root req w.headers, w.wire⟩)) := by
  have e1 : ("Allow" : String) ≠ headerFlagDoNotIntercept := by decide
  have e2 : ("Content-Type" : String) ≠ headerFlagDoNotIntercept := by decide
  have e3 : ("X-Content-Type-Options" : String) ≠ headerFlagDoNotIntercept := by decide
  simp only [dispatch, muxServe, hmiss, hknown, if_true, httpErrorOps, runIntercept,
    List.foldl_cons, List.foldl_nil, stepIntercept, Bool.false_eq_true, if_false,
    getHeader_aset_ne _ _ _ _ e1, getHeader_aset_ne _ _ _ _ e2,
    getHeader_aset_ne _ _ _ _ e3, hflag, hov, Option.isSome_some, Bool.true_and,
    beq_self_eq_true, if_true, amendedAllow405Headers]
  by_cases hd : getMethodsForPattern root req.path = [] <;> simp [hd]

def c1wOv : HandlerOps := [WriterOp.writeHeader 405, WriterOp.write "custom"]

def c1wRoot : RootState :=
  ⟨[⟨"GET", "/u", []⟩], [(405, c1wOv)], [], [], [], true⟩

theorem allow_header_405_amended_witness :
    dispatch c1wRoot ⟨"DELETE", "/u"⟩ ⟨[], []⟩ =
      .ok (.completed
        ⟨[("Allow", "GET"), ("Content-Type", "text/plain; charset=utf-8"),
          ("X-Content-Type-Options", "nosniff")],
         [WriterEvent.statusLine 405, WriterEvent.chunk "custom"]⟩) :=
  (allow_header_405_amended c1wRoot ⟨"DELETE", "/u"⟩ ⟨[], []⟩ c1wOv
    rfl rfl rfl rfl).trans (by rfl)

/-! ### C10: trailing-slash redirection -/

/-- C10.  With trailing-slash redirection enabled and a non-empty
request path: a path other than `/` that ends in a slash is immediately
answered by a redirect to the path without its final slash — built
straight from the incoming writer, before the interceptor pair, the
multiplexer, or any handler is consulted; every other request proceeds
to normal dispatch. -/
theorem trailing_slash_redirect (cfg : RouterConfig) (root : RootState)
    (req : Request) (w : ResponseState)
    (hflag : cfg.redirectTrailingSlash = true) (hne : req.path ≠ "") :
    (req.path ≠ "/" → req.path.data.getLast? = some '/' →
      serve cfg root req w = (serveSynth cfg root).map (fun r1 =>
        (r1, ServeOutcome.redirected (String.mk req.path.data.dropLast)
          defaultRedirectStatusCode
          (redirectResponse w (String.mk req.path.data.dropLast))))) ∧
    ((req.path = "/" ∨ req.path.data.getLast? ≠ some '/') →
      serve cfg root req w = (serveSynth cfg root).bind (fun r1 =>
        (dispatch r1 req w).map (fun o => (r1, o)))) := by
  constructor
  · intro hroot hslash
    cases hS : serveSynth cfg root with
    | error e => simp [serve, hS, Except.map]
    | ok r1 => simp [serve, hS, hflag, hroot, hslash, Except.map]
  · intro hother
    cases hS : serveSynth cfg root with
    | error e =>
        rcases hother with hroot | hslash <;> simp [serve, hS, Except.bind]
    | ok r1 =>
        rcases hother with hroot | hslash
        · simp [serve, hS, hflag, hroot, Except.bind]
        · by_cases hroot : req.path = "/"
          · simp [serve, hS, hflag, hroot, Except.bind]
          · cases hL : req.path.data.getLast? with
            | none =>
                exfalso
                apply hne
                have hdata := List.getLast?_eq_none_iff.mp hL
                obtain ⟨m, p⟩ := req
                obtain ⟨l⟩ := p
                change l = [] at hdata
                subst hdata
                rfl
            | some c =>
                have hc : ¬c = '/' := fun h => hslash (h ▸ hL)
                simp [serve, hS, hflag, hroot, hL, hc, Except.bind]

theorem trailing_slash_redirect_witness :
    serve ⟨"", [], true, false⟩ emptyRoot ⟨"GET", "/users/"⟩ ⟨[], []⟩ =
      .ok (emptyRoot, ServeOutcome.redirected "/users" defaultRedirectStatusCode
        ⟨[("Location", "/users")], []⟩) :=
  ((trailing_slash_redirect ⟨"", [], true, false⟩ emptyRoot ⟨"GET", "/users/"⟩ ⟨[], []⟩
      rfl (by decide)).1 (by decide) rfl).trans (by rfl)

end GoRouter
